import Mathlib

/-!
Verification of `oaipmh/metadata.py` (pyoai): a shallow embedding of the
`MetadataRegistry` and the field-based `MetadataReader`, together with
theorems settling the specified behaviour of both.

The embedding follows the Python source line by line:

* A Python value that an XPath evaluation may produce is modelled by
  `PyVal` (the `None` object, a string, an opaque object carrying its
  textual rendering, or a list of values).
* Python `str(v)` is modelled by `pyStr`; for a list it renders the
  bracketed, comma-separated sequence of the `repr` of the items, as
  CPython does.  Under Python 3 the source sets `text_type = str`,
  modelled by `text_type := pyStr`.
* The XPath capability of an element (`element.xpath(expr, namespaces=ns)`)
  is an external collaborator; it is modelled as a function from the
  expression and the namespace table to either a raised exception
  (`Except.error` with the message) or a produced value.
* The body of the `try:` block of `MetadataReader.__call__` is
  `fieldAttempt`; the `try/except` wrapper with its per-field default is
  `processField`; the loop that fills the Python dict `map` is
  `MetadataReader.call`, where dict assignment is `dictSet`.
* The registry dicts `_readers` and `_writers` are modelled as partial
  maps `String → Option _`; a missing-key access raises `KeyError`.
-/

namespace PyOai

/-- A Python value as far as the metadata reader can observe one:
the `None` object, a string, an opaque object (for instance an XML
element node) identified by its textual rendering, or a list. -/
inductive PyVal where
  | none : PyVal
  | str (s : String) : PyVal
  | obj (rep : String) : PyVal
  | list (items : List PyVal) : PyVal

mutual

/-- Python `repr` of a `PyVal`: strings are quoted, `None` prints as
`None`, lists recurse.  Quotes are written with the `\x27` escape. -/
def pyRepr : PyVal → String
  | .none => "None"
  | .str s => "\x27" ++ s ++ "\x27"
  | .obj rep => rep
  | .list items => "[" ++ String.intercalate ", " (pyReprList items) ++ "]"

/-- `repr` of every item of a list, in order. -/
def pyReprList : List PyVal → List String
  | [] => []
  | x :: xs => pyRepr x :: pyReprList xs

end

/-- Python `str(v)`: the string itself for a string, `None` for the
`None` object, the rendering of an object, and the bracketed
comma-separated `repr` of the items for a list, as CPython prints it. -/
def pyStr : PyVal → String
  | .none => "None"
  | .str s => s
  | .obj rep => rep
  | .list items => "[" ++ String.intercalate ", " (pyReprList items) ++ "]"

/-- Under Python 3 the source sets `text_type = str`. -/
def text_type : PyVal → String := pyStr

/-- A coerced field value as stored in the record: a single string or an
ordered sequence of strings. -/
inductive FieldVal where
  | str (s : String) : FieldVal
  | list (xs : List String) : FieldVal
deriving DecidableEq

/-- A namespace table: short prefixes mapped to namespace URIs. -/
def Namespaces : Type := List (String × String)

/-- The XPath capability of a parsed XML element, an external
collaborator: given an expression and a namespace table it either
raises (error message) or produces a value. -/
def Element : Type := String → Namespaces → Except String PyVal

/-- The body of the `try:` block of `MetadataReader.__call__` for one
field: evaluate the expression, then coerce the raw result according to
the declared field type; an unknown field type raises
`Error("Unknown field type: ...")` (inside the `try:` block). -/
def fieldAttempt (element : Element) (namespaces : Namespaces)
    (field_type expr : String) : Except String FieldVal :=
  match element expr namespaces with
  | .error ex => .error ex
  | .ok raw_result =>
    if field_type = "bytes" then
      .ok (.str (pyStr raw_result))
    else if field_type = "bytesList" then
      .ok (.list ((match raw_result with
        | .list items => items
        | other => [other]).map pyStr))
    else if field_type = "text" then
      .ok (.str (text_type raw_result))
    else if field_type = "textList" then
      match raw_result with
      | .list items => .ok (.list (items.map text_type))
      | .none => .ok (.list [])
      | single => .ok (.list [text_type single])
    else
      .error ("Unknown field type: " ++ field_type)

/-- Python `s.endswith(t)`: the characters of `t` are a suffix of the
characters of `s`. -/
def endswith (s t : String) : Bool :=
  t.data.isSuffixOf s.data

/-- One iteration of the field loop of `MetadataReader.__call__`:
the `try:` body, and on any exception the per-field recovery that
substitutes `[]` when the declared type ends in `List` and `""`
otherwise. -/
def processField (element : Element) (namespaces : Namespaces)
    (field_type expr : String) : FieldVal :=
  match fieldAttempt element namespaces field_type expr with
  | .ok value => value
  | .error _ =>
    if endswith field_type "List" then .list [] else .str ""

/-- Python dict assignment `m[k] = v`: overwrite in place when the key
is present, append otherwise. -/
def dictSet {V : Type} (m : List (String × V)) (k : String) (v : V) :
    List (String × V) :=
  if m.any (fun p => p.1 = k) then
    m.map (fun p => if p.1 = k then (k, v) else p)
  else
    m ++ [(k, v)]

/-- Modelled from the spec: `common.Metadata` (module `oaipmh/common.py`,
not under src/) — "an immutable association between a source XML element
(kept for provenance/back-reference only, never mutated) and a mapping
from field name to field value". -/
structure Metadata where
  element : Element
  map : List (String × FieldVal)

/-- The field-based reader: a fixed schema mapping each field name to
its declared type and XPath expression, plus a namespace table. -/
structure MetadataReader where
  _fields : List (String × String × String)
  _namespaces : Namespaces

/-- `MetadataReader.__call__`: process every declared field in order,
assigning each result into the dict `map`, and wrap the element and the
finished map into a `Metadata` record. -/
def MetadataReader.call (self : MetadataReader) (element : Element) :
    Metadata :=
  ⟨element,
    self._fields.foldl
      (fun m f => dictSet m f.1 (processField element self._namespaces f.2.1 f.2.2))
      []⟩

/-- `MetadataRegistry`: two independent dicts, readers and writers,
keyed by the metadata prefix (format identifier).  A Python dict is
modelled as a partial map. -/
structure MetadataRegistry (R W : Type) where
  _readers : String → Option R
  _writers : String → Option W

/-- `MetadataRegistry.__init__`: both dicts start empty. -/
def MetadataRegistry.init {R W : Type} : MetadataRegistry R W :=
  ⟨fun _ => Option.none, fun _ => Option.none⟩

/-- `registerReader`: `self._readers[metadata_prefix] = reader`. -/
def MetadataRegistry.registerReader {R W : Type} (self : MetadataRegistry R W)
    ( metadata_prefix : String) (reader : R) : MetadataRegistry R W :=
  { self with _readers := fun k => if k = metadata_prefix then some reader else self._readers k }

/-- `registerWriter`: `self._writers[metadata_prefix] = writer`. -/
def MetadataRegistry.registerWriter {R W : Type} (self : MetadataRegistry R W)
    ( metadata_prefix : String) (writer : W) : MetadataRegistry R W :=
  { self with _writers := fun k => if k = metadata_prefix then some writer else self._writers k }

/-- `hasReader`: `metadata_prefix in self._readers`. -/
def MetadataRegistry.hasReader {R W : Type} (self : MetadataRegistry R W)
    ( metadata_prefix : String) : Bool :=
  (self._readers metadata_prefix).isSome

/-- `hasWriter`: `metadata_prefix in self._writers`. -/
def MetadataRegistry.hasWriter {R W : Type} (self : MetadataRegistry R W)
    ( metadata_prefix : String) : Bool :=
  (self._writers metadata_prefix).isSome

/-- `readMetadata`: `return self._readers[metadata_prefix](element)`.
The dict access raises `KeyError` when no reader is registered under
the prefix; otherwise the registered reader is invoked on the element. -/
def MetadataRegistry.readMetadata {E M W : Type}
    (self : MetadataRegistry (E → M) W) ( metadata_prefix : String)
    (element : E) : Except String M :=
  match self._readers metadata_prefix with
  | some reader => .ok (reader element)
  | Option.none => .error ("KeyError: " ++ metadata_prefix)

/-- A registration call performed on a registry during its lifecycle
(the registry is constructed empty and populated by explicit
registration calls; entries are never removed). -/
inductive RegOp (R W : Type) where
  | regReader ( metadata_prefix : String) (reader : R) : RegOp R W
  | regWriter ( metadata_prefix : String) (writer : W) : RegOp R W

/-- Perform one registration call on a registry. -/
def applyOp {R W : Type} (self : MetadataRegistry R W) :
    RegOp R W → MetadataRegistry R W
  | .regReader p r => self.registerReader p r
  | .regWriter p w => self.registerWriter p w

/-- The registry state reached from the empty registry by a sequence of
registration calls, applied in order. -/
def applyOps {R W : Type} (ops : List (RegOp R W)) : MetadataRegistry R W :=
  ops.foldl applyOp .init

/-! ### Helper lemmas -/

/-- Assigning a fresh key into a dict appends the pair. -/
lemma dictSet_fresh {V : Type} (m : List (String × V)) (k : String) (v : V)
    (h : ∀ p ∈ m, p.1 ≠ k) : dictSet m k v = m ++ [(k, v)] := by
  unfold dictSet
  rw [if_neg]
  simp only [List.any_eq_true, decide_eq_true_eq, not_exists]
  intro p hp
  exact h p hp.1 hp.2

/-- Filling a dict by iterating assignments over pairwise-distinct keys,
all fresh for the accumulator, appends the produced pairs in order. -/
lemma foldl_dictSet_eq {A V : Type} (key : A → String) (g : A → V) :
    ∀ (fs : List A) (acc : List (String × V)),
    (fs.map key).Nodup →
    (∀ a ∈ fs, ∀ p ∈ acc, p.1 ≠ key a) →
    fs.foldl (fun m a => dictSet m (key a) (g a)) acc
      = acc ++ fs.map (fun a => (key a, g a)) := by
  intro fs
  induction fs with
  | nil => intro acc _ _; simp
  | cons a fs ih =>
    intro acc hnodup hfresh
    simp only [List.map_cons, List.nodup_cons] at hnodup
    have hstep : dictSet acc (key a) (g a) = acc ++ [(key a, g a)] :=
      dictSet_fresh acc (key a) (g a) (fun p hp => hfresh a (List.mem_cons_self a fs) p hp)
    simp only [List.foldl_cons, hstep]
    rw [ih (acc ++ [(key a, g a)]) hnodup.2]
    · simp
    · intro b hb p hp
      rcases List.mem_append.mp hp with hp | hp
      · exact hfresh b (List.mem_cons_of_mem a hb) p hp
      · simp only [List.mem_singleton] at hp
        subst hp
        intro hkey
        refine hnodup.1 ?_
        rw [show key a = key b from hkey]
        exact List.mem_map_of_mem key hb

/-- Looking up the key of a member in an association list whose keys are
pairwise distinct finds the value produced for that member. -/
lemma lookup_map_of_nodup {A V : Type} (key : A → String) (g : A → V) :
    ∀ (fs : List A), (fs.map key).Nodup →
    ∀ a ∈ fs, (fs.map (fun b => (key b, g b))).lookup (key a) = some (g a) := by
  intro fs
  induction fs with
  | nil => intro _ a ha; cases ha
  | cons b fs ih =>
    intro hnodup a ha
    simp only [List.map_cons, List.nodup_cons] at hnodup
    rcases List.mem_cons.mp ha with rfl | ha
    · simp [List.lookup]
    · have hne : (key a == key b) = false := by
        rw [beq_eq_false_iff_ne]
        intro hkey
        exact hnodup.1 (hkey ▸ List.mem_map_of_mem key ha)
      simp only [List.map_cons, List.lookup, hne]
      exact ih hnodup.2 a ha

/-- With pairwise-distinct field names (Python dict keys), `call`
produces exactly one entry per declared field, in declaration order,
holding that field's processed value. -/
lemma call_map_eq (reader : MetadataReader) (element : Element)
    (hnodup : (reader._fields.map Prod.fst).Nodup) :
    (reader.call element).map
      = reader._fields.map
          (fun f => (f.1, processField element reader._namespaces f.2.1 f.2.2)) := by
  unfold MetadataReader.call
  exact foldl_dictSet_eq Prod.fst
    (fun f => processField element reader._namespaces f.2.1 f.2.2)
    reader._fields [] hnodup (by intro a _ p hp; cases hp)

/-- Registering a writer leaves the readers dict untouched. -/
lemma registerWriter_readers {R W : Type} (self : MetadataRegistry R W)
    (p : String) (w : W) : (self.registerWriter p w)._readers = self._readers := rfl

/-- Registering a reader leaves the writers dict untouched. -/
lemma registerReader_writers {R W : Type} (self : MetadataRegistry R W)
    (p : String) (r : R) : (self.registerReader p r)._writers = self._writers := rfl

/-- Characterisation of `hasReader` over a fold of registration calls
starting from an arbitrary registry. -/
lemma hasReader_foldl {R W : Type} :
    ∀ (ops : List (RegOp R W)) (acc : MetadataRegistry R W) (p : String),
    (ops.foldl applyOp acc).hasReader p = true
      ↔ (∃ r, RegOp.regReader p r ∈ ops) ∨ acc.hasReader p = true := by
  intro ops
  induction ops with
  | nil => intro acc p; simp
  | cons op ops ih =>
    intro acc p
    simp only [List.foldl_cons]
    rw [ih]
    cases op with
    | regReader q r =>
      by_cases hpq : p = q
      · subst hpq
        simp [applyOp, MetadataRegistry.registerReader, MetadataRegistry.hasReader]
      · have : (applyOp acc (RegOp.regReader q r)).hasReader p = acc.hasReader p := by
          simp [applyOp, MetadataRegistry.registerReader, MetadataRegistry.hasReader, hpq]
        rw [this]
        constructor
        · rintro (⟨r', hr'⟩ | h)
          · exact Or.inl ⟨r', List.mem_cons_of_mem _ hr'⟩
          · exact Or.inr h
        · rintro (⟨r', hr'⟩ | h)
          · rcases List.mem_cons.mp hr' with heq | hmem
            · cases heq; exact absurd rfl hpq
            · exact Or.inl ⟨r', hmem⟩
          · exact Or.inr h
    | regWriter q w =>
      have : (applyOp acc (RegOp.regWriter q w)).hasReader p = acc.hasReader p := rfl
      rw [this]
      constructor
      · rintro (⟨r', hr'⟩ | h)
        · exact Or.inl ⟨r', List.mem_cons_of_mem _ hr'⟩
        · exact Or.inr h
      · rintro (⟨r', hr'⟩ | h)
        · rcases List.mem_cons.mp hr' with heq | hmem
          · cases heq
          · exact Or.inl ⟨r', hmem⟩
        · exact Or.inr h

/-! ### Claim theorems: registry -/

/-- C5: `readMetadata(formatId, element)` returns exactly the result of
invoking the reader registered under the format identifier on the
element when such a reader exists, and fails with a `KeyError` lookup
failure (not an empty or default record) when no reader is registered
under the identifier. -/
theorem c5_readMetadata_dispatch_or_keyerror {E M W : Type}
    (reg : MetadataRegistry (E → M) W) ( metadata_prefix : String) (element : E) :
    (∀ reader, reg._readers metadata_prefix = some reader →
      reg.readMetadata metadata_prefix element = .ok (reader element))
    ∧ (reg._readers metadata_prefix = Option.none →
      reg.readMetadata metadata_prefix element = .error ("KeyError: " ++ metadata_prefix)) := by
  constructor
  · intro reader hr
    unfold MetadataRegistry.readMetadata
    rw [hr]
  · intro hr
    unfold MetadataRegistry.readMetadata
    rw [hr]

/-- Registry used by the registry witnesses: one reader under "x". -/
def regW : MetadataRegistry (Nat → Nat) Unit :=
  MetadataRegistry.init.registerReader "x" (fun n => n + 1)

/-- Witness for C5 at a concrete registry: dispatch under "x" applies
the stored reader; lookup under "y" raises `KeyError`. -/
theorem c5_witness :
    regW.readMetadata "x" 41 = .ok 42
    ∧ regW.readMetadata "y" 0 = .error "KeyError: y" := by
  refine ⟨?_, ?_⟩
  · exact (c5_readMetadata_dispatch_or_keyerror regW "x" 41).1 (fun n => n + 1) rfl
  · exact (c5_readMetadata_dispatch_or_keyerror regW "y" 0).2 rfl

/-- C6: over any sequence of registration calls on a fresh registry,
`hasReader` answers true exactly for the identifiers some
`registerReader` call used, and false (without raising) for every
identifier never registered. -/
theorem c6_hasReader_iff_registered {R W : Type} (ops : List (RegOp R W)) (p : String) :
    (applyOps ops).hasReader p = true ↔ ∃ r, RegOp.regReader p r ∈ ops := by
  unfold applyOps
  rw [hasReader_foldl]
  simp [MetadataRegistry.hasReader, MetadataRegistry.init]

/-- Witness for C6: after registering a reader under "x" on a fresh
registry, `hasReader "x"` is true and `hasReader "y"` is false. -/
theorem c6_witness :
    (applyOps [RegOp.regReader "x" (0 : Nat)] : MetadataRegistry Nat Unit).hasReader "x" = true
    ∧ (applyOps [RegOp.regReader "x" (0 : Nat)] : MetadataRegistry Nat Unit).hasReader "y" = false := by
  constructor
  · exact (c6_hasReader_iff_registered [RegOp.regReader "x" (0 : Nat)] "x").mpr
      ⟨0, List.mem_singleton.mpr rfl⟩
  · have h := c6_hasReader_iff_registered (W := Unit) [RegOp.regReader "x" (0 : Nat)] "y"
    rw [Bool.eq_false_iff]
    intro hy
    rcases h.mp hy with ⟨r, hr⟩
    rw [List.mem_singleton] at hr
    injection hr with h1 h2
    exact absurd h1 (by decide)

/-- C8: registering twice under the same identifier succeeds and the
second reader wins: the stored entry is the second reader and dispatch
invokes it. -/
theorem c8_last_registration_wins {E M W : Type} (reg : MetadataRegistry (E → M) W)
    ( metadata_prefix : String) (r1 r2 : E → M) (element : E) :
    ((reg.registerReader metadata_prefix r1).registerReader metadata_prefix r2).hasReader metadata_prefix = true
    ∧ ((reg.registerReader metadata_prefix r1).registerReader metadata_prefix r2)._readers metadata_prefix = some r2
    ∧ ((reg.registerReader metadata_prefix r1).registerReader metadata_prefix r2).readMetadata metadata_prefix element
        = .ok (r2 element) := by
  refine ⟨?_, ?_, ?_⟩ <;>
    simp [MetadataRegistry.registerReader, MetadataRegistry.hasReader,
      MetadataRegistry.readMetadata]

/-- C9: the readers dict and the writers dict are independent:
`registerReader` leaves `_writers` (hence `hasWriter`) unchanged and
`registerWriter` leaves `_readers` (hence `hasReader`) unchanged. -/
theorem c9_readers_writers_independent {R W : Type} (reg : MetadataRegistry R W)
    (p q : String) (reader : R) (writer : W) :
    ((reg.registerReader p reader)._writers = reg._writers)
    ∧ ((reg.registerWriter p writer)._readers = reg._readers)
    ∧ ((reg.registerReader p reader).hasWriter q = reg.hasWriter q)
    ∧ ((reg.registerWriter p writer).hasReader q = reg.hasReader q) :=
  ⟨rfl, rfl, rfl, rfl⟩

/-! ### Claim theorems: field reader -/

/-- C7: for the scalar types `text` and `bytes`, the coerced value is
the stringification of the whole raw XPath result — whatever shape the
raw result has (zero, one, or many underlying matches) — never a
selection of the first match. -/
theorem c7_scalar_stringifies_whole_result (element : Element)
    (namespaces : Namespaces) (expr : String) (raw_result : PyVal)
    (hok : element expr namespaces = .ok raw_result) :
    processField element namespaces "text" expr = .str (pyStr raw_result)
    ∧ processField element namespaces "bytes" expr = .str (pyStr raw_result) := by
  constructor <;> (unfold processField fieldAttempt; rw [hok]; rfl)

/-- Witness for C7: a `text` field whose expression matches two text
nodes is stringified as the whole two-element list, not as its first
match. -/
theorem c7_witness :
    processField (fun _ _ => Except.ok (PyVal.list [PyVal.str "a", PyVal.str "b"])) [] "text" "p"
      = FieldVal.str "[\x27a\x27, \x27b\x27]"
    ∧ FieldVal.str "[\x27a\x27, \x27b\x27]" ≠ FieldVal.str "a" := by
  have h := c7_scalar_stringifies_whole_result
    (fun _ _ => Except.ok (PyVal.list [PyVal.str "a", PyVal.str "b"])) [] "p"
    (PyVal.list [PyVal.str "a", PyVal.str "b"]) rfl
  exact ⟨h.1.trans (by decide), by decide⟩

/-- C10: whenever the per-field recovery fires (the attempt for the
field ended in an error), the substituted default is chosen solely by
whether the declared type string ends with `List`: such types receive
the empty sequence and every other type string receives the empty
string. -/
theorem c10_default_by_list_suffix (element : Element) (namespaces : Namespaces)
    (field_type expr msg : String)
    (herr : fieldAttempt element namespaces field_type expr = .error msg) :
    processField element namespaces field_type expr
      = if endswith field_type "List" then FieldVal.list [] else FieldVal.str "" := by
  unfold processField
  rw [herr]

/-- Witness for C10: unrecognized types with a succeeding XPath call:
a non-List one ends up as the empty string, a List one as the empty
sequence. -/
theorem c10_witness :
    processField (fun _ _ => Except.ok (PyVal.str "v")) [] "custom" "p" = FieldVal.str ""
    ∧ processField (fun _ _ => Except.ok (PyVal.str "v")) [] "customList" "p" = FieldVal.list [] := by
  have h1 := c10_default_by_list_suffix (fun _ _ => Except.ok (PyVal.str "v")) []
    "custom" "p" ("Unknown field type: " ++ "custom") rfl
  have h2 := c10_default_by_list_suffix (fun _ _ => Except.ok (PyVal.str "v")) []
    "customList" "p" ("Unknown field type: " ++ "customList") rfl
  exact ⟨h1.trans (by decide), h2.trans (by decide)⟩

/-- C1: if the attempt for one declared field (of any of the four
recognized types) ends in an error, the returned record holds the
type-appropriate default for that field (empty string for the scalar
types, empty sequence for the list types), and every other declared
field whose own attempt succeeds still receives its correctly extracted
value; the read itself is total and returns a record (`call` is a total
function of this embedding). -/
theorem c1_per_field_failure_isolation (reader : MetadataReader) (element : Element)
    (field_name field_type expr msg : String)
    (hmem : (field_name, field_type, expr) ∈ reader._fields)
    (hnodup : (reader._fields.map Prod.fst).Nodup)
    (hft : field_type = "bytes" ∨ field_type = "text"
      ∨ field_type = "bytesList" ∨ field_type = "textList")
    (herr : fieldAttempt element reader._namespaces field_type expr = .error msg) :
    ((reader.call element).map.lookup field_name
      = some (if field_type = "bytesList" ∨ field_type = "textList"
              then FieldVal.list [] else FieldVal.str ""))
    ∧ (∀ fn ft ex v, (fn, ft, ex) ∈ reader._fields → fn ≠ field_name →
        fieldAttempt element reader._namespaces ft ex = .ok v →
        (reader.call element).map.lookup fn = some v) := by
  have hmap := call_map_eq reader element hnodup
  constructor
  · rw [hmap]
    have hl := lookup_map_of_nodup Prod.fst
      (fun f => processField element reader._namespaces f.2.1 f.2.2)
      reader._fields hnodup _ hmem
    refine Eq.trans hl ?_
    have hp : processField element reader._namespaces field_type expr
        = if endswith field_type "List" then FieldVal.list [] else FieldVal.str "" := by
      unfold processField
      rw [herr]
    rw [show (fun f => processField element reader._namespaces f.2.1 f.2.2)
          ((field_name, field_type, expr) : String × String × String)
        = processField element reader._namespaces field_type expr from rfl, hp]
    rcases hft with rfl | rfl | rfl | rfl <;> decide
  · intro fn ft ex v hmem' hne hok
    rw [hmap]
    have hl := lookup_map_of_nodup Prod.fst
      (fun f => processField element reader._namespaces f.2.1 f.2.2)
      reader._fields hnodup _ hmem'
    refine Eq.trans hl ?_
    rw [show (fun f => processField element reader._namespaces f.2.1 f.2.2)
          ((fn, ft, ex) : String × String × String)
        = processField element reader._namespaces ft ex from rfl]
    unfold processField
    rw [hok]

/-- Element used by the reader witnesses: the expression "boom" raises,
"one" matches one text node, anything else matches none. -/
def elemBoom : Element := fun expr _ =>
  if expr = "boom" then Except.error "XPathEvalError: Invalid expression"
  else if expr = "one" then Except.ok (PyVal.list [PyVal.str "A"])
  else Except.ok (PyVal.list [])

/-- Reader used by the reader witnesses: a good `textList` field and a
`text` field whose expression raises. -/
def readerTwoFields : MetadataReader :=
  ⟨[("title", "textList", "one"), ("rights", "text", "boom")], []⟩

/-- Witness for C1: the failing `text` field degrades to the empty
string while the other field still extracts its value. -/
theorem c1_witness :
    ((readerTwoFields.call elemBoom).map.lookup "rights" = some (FieldVal.str ""))
    ∧ ((readerTwoFields.call elemBoom).map.lookup "title" = some (FieldVal.list ["A"])) := by
  have h := c1_per_field_failure_isolation readerTwoFields elemBoom
    "rights" "text" "boom" "XPathEvalError: Invalid expression"
    (by decide) (by decide) (by decide) rfl
  refine ⟨h.1.trans (by decide), ?_⟩
  exact h.2 "title" "textList" "one" (FieldVal.list ["A"]) (by decide) (by decide) rfl

/-- C2: with the pairwise-distinct field names a Python dict guarantees,
the record returned by `call` has exactly the declared field names as
keys — never more, never fewer — in declaration order, also when the
extraction of some field failed. -/
theorem c2_record_keys_exactly_schema_fields (reader : MetadataReader)
    (element : Element) (hnodup : (reader._fields.map Prod.fst).Nodup) :
    (reader.call element).map.map Prod.fst = reader._fields.map Prod.fst
    ∧ (reader.call element).map.length = reader._fields.length := by
  rw [call_map_eq reader element hnodup]
  constructor
  · rw [List.map_map]
    rfl
  · rw [List.length_map]

/-- Witness for C2: the two-field reader (one failing field) yields a
record with exactly the two declared keys. -/
theorem c2_witness :
    (readerTwoFields.call elemBoom).map.map Prod.fst = ["title", "rights"]
    ∧ (readerTwoFields.call elemBoom).map.length = 2 := by
  have h := c2_record_keys_exactly_schema_fields readerTwoFields elemBoom (by decide)
  exact ⟨h.1.trans (by decide), h.2.trans (by decide)⟩

/-! ### Claim theorems: unknown field type (C3) and list coercion (C4) -/

/-- Element used by the unknown-type theorems: every expression
evaluates successfully to the string "x". -/
def elemConst : Element := fun _ _ => Except.ok (PyVal.str "x")

/-- C3 counterexample: a schema declaring a field of the unrecognized
type "weird", on an element whose XPath evaluation succeeds.  The
attempt for the field does raise the unknown-type `Error`, but the read
completes normally and the field is replaced by the per-field default
empty string — the failure is not surfaced to the caller, contradicting
the claim that an unknown type fails the read immediately. -/
theorem c3_counterexample :
    fieldAttempt elemConst [] "weird" "p" = Except.error ("Unknown field type: " ++ "weird")
    ∧ (MetadataReader.call ⟨[("f", "weird", "p")], []⟩ elemConst).map
        = [("f", FieldVal.str "")] :=
  ⟨rfl, rfl⟩

/-- C3 amended: a field whose declared type is outside the four
recognized kinds raises `Error("Unknown field type: ...")` inside the
per-field `try:` block, so the error is caught by the same per-field
recovery as any runtime failure: the field receives the default (empty
string, or empty sequence when the type name ends in `List`) and the
read continues instead of failing. -/
theorem c3_amended_unknown_type_is_caught (element : Element)
    (namespaces : Namespaces) (field_type expr : String) (raw_result : PyVal)
    (h1 : field_type ≠ "bytes") (h2 : field_type ≠ "bytesList")
    (h3 : field_type ≠ "text") (h4 : field_type ≠ "textList")
    (hok : element expr namespaces = .ok raw_result) :
    fieldAttempt element namespaces field_type expr
      = .error ("Unknown field type: " ++ field_type)
    ∧ processField element namespaces field_type expr
        = (if endswith field_type "List" then FieldVal.list [] else FieldVal.str "") := by
  have ha : fieldAttempt element namespaces field_type expr
      = .error ("Unknown field type: " ++ field_type) := by
    unfold fieldAttempt
    rw [hok]
    simp only [if_neg h1, if_neg h2, if_neg h3, if_neg h4]
  refine ⟨ha, ?_⟩
  unfold processField
  rw [ha]

/-- Witness for the amended C3 at the type "weird": the attempt raises
and the processed field is the empty string. -/
theorem c3_amended_witness :
    fieldAttempt elemConst [] "weird" "q" = Except.error ("Unknown field type: " ++ "weird")
    ∧ processField elemConst [] "weird" "q" = FieldVal.str "" := by
  have h := c3_amended_unknown_type_is_caught elemConst [] "weird" "q" (PyVal.str "x")
    (by decide) (by decide) (by decide) (by decide) rfl
  exact ⟨h.1, h.2.trans (by decide)⟩

/-- C4 counterexample: a `bytesList` field whose raw XPath result is the
absent value `None` is coerced to the one-element sequence containing
the string "None", not to the empty sequence the claim requires for an
absent result. -/
theorem c4_counterexample :
    processField (fun _ _ => Except.ok PyVal.none) [] "bytesList" "p"
      = FieldVal.list ["None"]
    ∧ FieldVal.list ["None"] ≠ FieldVal.list [] :=
  ⟨rfl, by decide⟩

/-- C4 amended: for `textList` the claim holds as stated (a sequence
maps elementwise in order, the absent value `None` gives the empty
sequence, any other single value is wrapped into a one-element
sequence); for `bytesList` a sequence also maps elementwise in order,
but every non-sequence raw result — including the absent value `None` —
is wrapped into a one-element sequence of its stringification, so an
absent result yields the sequence containing "None" rather than the
empty sequence. -/
theorem c4_amended_list_coercion (element : Element) (namespaces : Namespaces)
    (expr : String) (raw_result : PyVal)
    (hok : element expr namespaces = .ok raw_result) :
    (∀ items, raw_result = .list items →
      processField element namespaces "textList" expr = .list (items.map text_type)
      ∧ processField element namespaces "bytesList" expr = .list (items.map pyStr))
    ∧ (raw_result = .none →
      processField element namespaces "textList" expr = .list []
      ∧ processField element namespaces "bytesList" expr = .list ["None"])
    ∧ (∀ s, raw_result = .str s →
      processField element namespaces "textList" expr = .list [s]
      ∧ processField element namespaces "bytesList" expr = .list [s])
    ∧ (∀ rep, raw_result = .obj rep →
      processField element namespaces "textList" expr = .list [rep]
      ∧ processField element namespaces "bytesList" expr = .list [rep]) := by
  refine ⟨?_, ?_, ?_, ?_⟩
  · rintro items rfl
    exact ⟨by unfold processField fieldAttempt; rw [hok]; rfl,
      by unfold processField fieldAttempt; rw [hok]; rfl⟩
  · rintro rfl
    exact ⟨by unfold processField fieldAttempt; rw [hok]; rfl,
      by unfold processField fieldAttempt; rw [hok]; rfl⟩
  · rintro s rfl
    exact ⟨by unfold processField fieldAttempt; rw [hok]; rfl,
      by unfold processField fieldAttempt; rw [hok]; rfl⟩
  · rintro rep rfl
    exact ⟨by unfold processField fieldAttempt; rw [hok]; rfl,
      by unfold processField fieldAttempt; rw [hok]; rfl⟩

/-- Witness for the amended C4: a two-match sequence keeps order and
count for both list types, and the absent value gives the empty
sequence for `textList` but the sequence containing "None" for
`bytesList`. -/
theorem c4_amended_witness :
    (processField (fun _ _ => Except.ok (PyVal.list [PyVal.str "A", PyVal.str "B"])) [] "textList" "p"
        = FieldVal.list ["A", "B"])
    ∧ (processField (fun _ _ => Except.ok PyVal.none) [] "textList" "p" = FieldVal.list [])
    ∧ (processField (fun _ _ => Except.ok PyVal.none) [] "bytesList" "p" = FieldVal.list ["None"]) := by
  have h1 := (c4_amended_list_coercion
    (fun _ _ => Except.ok (PyVal.list [PyVal.str "A", PyVal.str "B"])) [] "p"
    (PyVal.list [PyVal.str "A", PyVal.str "B"]) rfl).1
    [PyVal.str "A", PyVal.str "B"] rfl
  have h2 := (c4_amended_list_coercion
    (fun _ _ => Except.ok PyVal.none) [] "p" PyVal.none rfl).2.1 rfl
  exact ⟨h1.1.trans (by decide), h2.1, h2.2⟩

end PyOai
